import Mathlib

/-!
Verification of the psola vocoding pipeline (`psola/core.py`).

The embedding models the pure orchestration and serialization logic of the
repository: tier serialization (`write_duration_tier`, `write_pitch_tier`),
the rate-curve construction in `time_stretch`, the pitch normalization in
`pitch_shift`, the branch structure of `vocode`, and the batch pairing in
`from_files_to_files`.  Real numbers are modelled as rationals; a NaN pitch
entry is modelled as `none`; the external Praat engine is an abstract
`Engine` record whose resynthesis calls may fail.
-/

namespace Psola

/-! ### Fixed six-decimal rendering (Python format specifier .6f) -/

/-- The decimal digit character for `d % 10`. -/
def digChar (d : ℕ) : Char := Char.ofNat (48 + d % 10)

/-- Fuelled digit-list construction for a natural number (most significant first). -/
def natDigitsAux : ℕ → ℕ → List Char
  | 0, _ => []
  | fuel + 1, n => if n = 0 then [] else natDigitsAux fuel (n / 10) ++ [digChar (n % 10)]

/-- Decimal digit characters of `n`, with `0` rendered as `"0"`. -/
def digitsOf (n : ℕ) : List Char := if n = 0 then ['0'] else natDigitsAux n n

/-- Decimal rendering of a natural number. -/
def natRepr (n : ℕ) : String := String.mk (digitsOf n)

/-- The six fractional digit characters, zero-padded on the left. -/
def padSixChars (m : ℕ) : List Char :=
  List.replicate (6 - (digitsOf m).length) '0' ++ digitsOf m

/-- Round a nonnegative rational to integer microunits (used with 6-decimal rendering). -/
def micro (q : ℚ) : ℕ := ((q.num * 2000000 + (q.den : ℤ)) / (2 * (q.den : ℤ))).toNat

/-- Character list of the fixed 6-decimal rendering of `q`. -/
def fixedChars (q : ℚ) : List Char :=
  (if q < 0 then ['-'] else []) ++
    digitsOf (micro |q| / 1000000) ++ '.' :: padSixChars (micro |q| % 1000000)

/-- Fixed 6-decimal rendering of a rational, mirroring Python `.6f` formatting. -/
def formatFixed6 (q : ℚ) : String := String.mk (fixedChars q)

/-- On a reversed character list: the text ends in a dot followed by exactly six
digits, and contains no other dot. -/
def sixDecTail (cs : List Char) : Bool :=
  (cs.take 6).all Char.isDigit && ((cs.take 6).length == 6) &&
    ((cs.drop 6).head? == some '.') && (cs.drop 7).all (fun c => c != '.')

/-- The string is rendered with exactly six decimal digits of fixed precision. -/
def hasSixDecimals (s : String) : Bool := sixDecTail s.data.reverse

/-! ### Data model -/

/-- Samples of an audio signal. -/
abbrev Audio := List ℚ

/-- A pitch contour: one optional frequency per frame (`none` models NaN). -/
abbrev PitchArr := List (Option ℚ)

/-- Errors the pipeline can propagate: an engine analysis failure raised by a
Praat call, or a Python attribute error from using `None` as an alignment. -/
inductive Err where
  | engineAnalysis : Err
  | attributeError : Err
deriving DecidableEq

/-- A phoneme alignment as consumed by `time_stretch`: the phoneme start
times (`alignment.phonemes()` starts) and the total end time (`alignment.end()`). -/
structure Alignment where
  phonemeStarts : List ℚ
  endTime : ℚ
deriving DecidableEq

/-- The numeric content handed to `write_duration_tier`: boundary times and
per-segment rates. -/
structure DurationTier where
  times : List ℚ
  rates : List ℚ
deriving DecidableEq

/-- The numeric content written by `write_pitch_tier`: the declared duration
(`xmax`), the declared point count, and the emitted (time, value) pairs. -/
structure PitchTier where
  xmax : ℚ
  count : ℕ
  points : List (ℚ × ℚ)
deriving DecidableEq

/-- The external Praat engine and alignment comparison, abstracted: overlap-add
resynthesis after a duration-tier or pitch-tier replacement (either may fail),
and `pypar.compare.per_phoneme_rate`. -/
structure Engine where
  stretch : Audio → DurationTier → Except Err Audio
  shift : Audio → PitchTier → Except Err Audio
  rateFn : Alignment → Alignment → List ℚ

/-- The `eps` of `write_duration_tier`: 1e-6 seconds between discontinuity points. -/
def eps : ℚ := 1 / 1000000

/-- The clamp `rates[rates < .0625] = .0625` applied to one rate. -/
def clampRate (r : ℚ) : ℚ := if r < 1 / 16 then 1 / 16 else r

/-- Embedding of `np.linspace(0., d, n)`. -/
def linspaceQ (d : ℚ) (n : ℕ) : List ℚ :=
  (List.range n).map (fun (i : ℕ) => if n ≤ 1 then (0 : ℚ) else (i : ℚ) * d / ((n : ℚ) - 1))

/-! ### Pitch tier serialization (`write_pitch_tier`) -/

/-- Embedding of `write_pitch_tier(filename, pitch, duration)`: times are a linspace over
the duration, the declared count is the number of non-NaN entries, and only
non-NaN entries are emitted as (time, value) pairs. -/
def write_pitch_tier (pitch : PitchArr) (duration : ℚ) : PitchTier :=
  { xmax := duration
    count := pitch.countP (fun v => v.isSome)
    points := ((linspaceQ duration pitch.length).zip pitch).filterMap
      (fun tv => tv.2.map (fun v => (tv.1, v))) }

/-- Embedding of `pitch_shift(audio, pitch, fmin, fmax, sample_rate, tmpdir)`: copies the
contour, replaces NaN by 0, writes the pitch tier with the audio duration, and
resynthesizes through the engine.  Returns the engine result and the written tier. -/
def pitch_shift (eng : Engine) (audio : Audio) (pitch : PitchArr) (sr : ℚ) :
    Except Err Audio × PitchTier :=
  let p := pitch.map (fun v => some (v.getD 0))
  let tier := write_pitch_tier p ((audio.length : ℚ) / sr)
  (eng.shift audio tier, tier)

/-! ### Duration tier serialization (`write_duration_tier`) -/

/-- The per-segment triples `zip(times[:-1], times[1:], rates)`. -/
def segTriples (times rates : List ℚ) : List ((ℚ × ℚ) × ℚ) :=
  (times.zip times.tail).zip rates

/-- The first control point a segment contributes: `(start + eps, rate)`. -/
def segPointA (s : (ℚ × ℚ) × ℚ) : ℚ × ℚ := (s.1.1 + eps, s.2)

/-- The second control point a segment contributes: `(end - eps, rate)`. -/
def segPointB (s : (ℚ × ℚ) × ℚ) : ℚ × ℚ := (s.1.2 - eps, s.2)

/-- The (number, value) control points of the duration tier, in emission
order: an initial identity point, two bracketing points per segment, and a
final identity point at the last boundary. -/
def durationPointsCore (times rates : List ℚ) (lastT : ℚ) : List (ℚ × ℚ) :=
  (0, 1) ::
    (segTriples times rates).flatMap (fun s => [segPointA s, segPointB s]) ++
    [(lastT, 1)]

/-- One line of the serialized duration tier: either a literal text line, or a
`key = value` line carrying a rendered floating value. -/
inductive TierEntry where
  | lineE : String → TierEntry
  | valE : String → String → TierEntry
deriving DecidableEq, BEq

/-- Rendering of one `TierEntry` to its text line. -/
def renderEntry : TierEntry → String
  | TierEntry.lineE s => s
  | TierEntry.valE k v => k ++ " = " ++ v

/-- The full serialized duration tier, line by line, mirroring
`write_duration_tier`: header, `xmin`/`xmax`/size declarations, the initial
identity point (its time written as the literal `0`), two 6-decimal points per
segment, and the final identity point. -/
def durationEntriesCore (times rates : List ℚ) (lastT : ℚ) : List TierEntry :=
  [TierEntry.lineE "File type = \"ooTextFile\"",
   TierEntry.lineE "Object class = \"DurationTier\"",
   TierEntry.lineE "",
   TierEntry.valE "xmin" "0.000000",
   TierEntry.valE "xmax" (formatFixed6 lastT),
   TierEntry.lineE ("points: size = " ++ natRepr (2 * times.length)),
   TierEntry.lineE "points [1]:",
   TierEntry.valE "\tnumber" "0",
   TierEntry.valE "\tvalue" "1.000000"] ++
  (segTriples times rates).enum.flatMap (fun p =>
    [TierEntry.lineE ("points [" ++ natRepr (2 * p.1 + 2) ++ "]:"),
     TierEntry.valE "\tnumber" (formatFixed6 (p.2.1.1 + eps)),
     TierEntry.valE "\tvalue" (formatFixed6 p.2.2),
     TierEntry.lineE ("points [" ++ natRepr (2 * p.1 + 3) ++ "]:"),
     TierEntry.valE "\tnumber" (formatFixed6 (p.2.1.2 - eps)),
     TierEntry.valE "\tvalue" (formatFixed6 p.2.2)]) ++
  [TierEntry.lineE ("points [" ++ natRepr (2 * times.length) ++ "]:"),
   TierEntry.valE "\tnumber" (formatFixed6 lastT),
   TierEntry.valE "\tvalue" "1.000000"]

/-- The numeric control points written by `write_duration_tier`; `none` when
`times` is empty (Python would fail on `times[-1]`). -/
def durationTierPoints (times rates : List ℚ) : Option (List (ℚ × ℚ)) :=
  (times.getLast?).map (durationPointsCore times rates)

/-- The serialized duration tier text; `none` when `times` is empty. -/
def write_duration_tier (times rates : List ℚ) : Option (List TierEntry) :=
  (times.getLast?).map (durationEntriesCore times rates)

/-- The rendered floating values of a serialized tier, in order. -/
def tierValues (es : List TierEntry) : List String :=
  es.filterMap (fun e => match e with
    | TierEntry.valE _ v => some v
    | TierEntry.lineE _ => none)

/-! ### Time stretching (`time_stretch`) -/

/-- Embedding of `time_stretch`: constant mode uses boundaries `[0, len(audio)/sr]` and the
single unclamped rate `1/constant_stretch`; alignment mode uses phoneme starts
plus the alignment end, with per-phoneme rates clamped at 0.0625.  Returns the
engine result and the duration tier that was written (`none` only on the
unreachable missing-alignment path, where Python raises before writing). -/
def time_stretch (eng : Engine) (audio : Audio) (al tgt : Option Alignment)
    (c : Option ℚ) (sr : ℚ) : Except Err Audio × Option DurationTier :=
  match c with
  | some γ =>
    let tier : DurationTier := ⟨[0, (audio.length : ℚ) / sr], [1 / γ]⟩
    (eng.stretch audio tier, some tier)
  | none =>
    match al, tgt with
    | some a, some t =>
      let tier : DurationTier := ⟨a.phonemeStarts ++ [a.endTime], (eng.rateFn a t).map clampRate⟩
      (eng.stretch audio tier, some tier)
    | _, _ => (Except.error Err.attributeError, none)

/-! ### The vocode orchestrator -/

/-- Result of one `vocode` call: the returned (or failed) audio, and the tiers
written into the temporary workspace along the way. -/
structure VocodeResult where
  result : Except Err Audio
  durTier : Option DurationTier
  pitchTier : Option PitchTier

/-- Embedding of `vocode`: time-stretch when a constant factor is given or both alignments
are given, then pitch-shift the (possibly stretched) audio when a target pitch
is given. -/
def vocode (eng : Engine) (audio : Audio) (sr : ℚ) (al tgt : Option Alignment)
    (targetPitch : Option PitchArr) (c : Option ℚ) : VocodeResult :=
  if c.isSome ∨ (al.isSome ∧ tgt.isSome) then
    let ts := time_stretch eng audio al tgt c sr
    match ts.1, ts.2 with
    | Except.error e, tierOpt => ⟨Except.error e, tierOpt, none⟩
    | Except.ok a1, tierOpt =>
      match targetPitch with
      | none => ⟨Except.ok a1, tierOpt, none⟩
      | some p =>
        let ps := pitch_shift eng a1 p sr
        ⟨ps.1, tierOpt, some ps.2⟩
  else
    match targetPitch with
    | none => ⟨Except.ok audio, none, none⟩
    | some p =>
      let ps := pitch_shift eng audio p sr
      ⟨ps.1, none, some ps.2⟩

/-! ### Batch driver (`from_files_to_files`) -/

/-- Expansion of a `None`-valued optional batch list to per-item options. -/
def expandOpt (n : ℕ) (o : Option (List String)) : List (Option String) :=
  match o with
  | none => List.replicate n none
  | some xs => xs.map some

/-- The effective length an optional batch list contributes to the zip. -/
def optLen (n : ℕ) (o : Option (List String)) : ℕ :=
  match o with
  | none => n
  | some xs => xs.length

/-- The per-item work list built by `from_files_to_files`: Python `zip`
semantics over the audio, output, and expanded optional lists. -/
def from_files_to_files (audioFiles outputFiles : List String)
    (srcs tgts pitches : Option (List String)) :
    List (String × String × Option String × Option String × Option String) :=
  audioFiles.zip (outputFiles.zip
    ((expandOpt audioFiles.length srcs).zip
      ((expandOpt audioFiles.length tgts).zip (expandOpt audioFiles.length pitches))))

/-! ### Workspace lifecycle (`with tempfile.TemporaryDirectory()`) -/

/-- A fresh workspace directory identifier, distinct from all live ones. -/
def freshDir (dirs : List ℕ) : ℕ := (dirs.foldr max 0) + 1

/-- The `vocode` body with the temporary-workspace lifecycle made explicit: a fresh
directory is created, the body writes its intermediate files into it (also on
paths where the engine then fails), and the `with` block removes the directory
and its files on every exit path before the result is returned. -/
def vocodeFS (eng : Engine) (audio : Audio) (sr : ℚ) (al tgt : Option Alignment)
    (targetPitch : Option PitchArr) (c : Option ℚ)
    (files : List (ℕ × String)) (dirs : List ℕ) :
    Except Err Audio × List (ℕ × String) × List ℕ :=
  let d := freshDir dirs
  let body : Except Err Audio × List (ℕ × String) :=
    if c.isSome ∨ (al.isSome ∧ tgt.isSome) then
      let ts := time_stretch eng audio al tgt c sr
      let files1 := files ++ [(d, "duration.txt"), (d, "audio.wav")]
      match ts.1 with
      | Except.error e => (Except.error e, files1)
      | Except.ok a1 =>
        match targetPitch with
        | none => (Except.ok a1, files1)
        | some p => ((pitch_shift eng a1 p sr).1, files1 ++ [(d, "pitch.txt"), (d, "audio.wav")])
    else
      match targetPitch with
      | none => (Except.ok audio, files)
      | some p => ((pitch_shift eng audio p sr).1, files ++ [(d, "pitch.txt"), (d, "audio.wav")])
  (body.1, body.2.filter (fun q => q.1 != d), (d :: dirs).erase d)

/-! ### A heap model for the caller's pitch array (`np.copy` in `pitch_shift`) -/

/-- A heap of numpy arrays, addressed by index. -/
abbrev Heap := List PitchArr

/-- Read an array out of the heap. -/
def readRef (h : Heap) (r : ℕ) : PitchArr := (h[r]?).getD []

/-- Overwrite an array in the heap (an in-place numpy mutation). -/
def writeRef (h : Heap) (r : ℕ) (a : PitchArr) : Heap := h.set r a

/-- The `pitch_shift` body with the array aliasing made explicit: `np.copy` allocates a
fresh array, the NaN-to-0 assignment mutates that fresh array in place, and the
tier is written from it. -/
def pitch_shiftH (eng : Engine) (audio : Audio) (h : Heap) (pitchRef : ℕ) (sr : ℚ) :
    (Except Err Audio × PitchTier) × Heap :=
  let copyRef := h.length
  let h1 := h ++ [readRef h pitchRef]
  let h2 := writeRef h1 copyRef ((readRef h1 copyRef).map (fun v => some (v.getD 0)))
  let tier := write_pitch_tier (readRef h2 copyRef) ((audio.length : ℚ) / sr)
  ((eng.shift audio tier, tier), h2)

/-- A concrete engine whose stretch doubles the signal and whose shift returns
its input, used to instantiate closed statements. -/
def okEngine : Engine :=
  { stretch := fun a _ => Except.ok (a ++ a)
    shift := fun a _ => Except.ok a
    rateFn := fun _ _ => [1] }

/-! ### Helper lemmas: lists -/

lemma clampRate_eq_max (r : ℚ) : clampRate r = max r (1 / 16) := by
  unfold clampRate
  rcases lt_or_le r (1 / 16) with h | h
  · rw [if_pos h, max_eq_right h.le]
  · rw [if_neg (not_lt.mpr h), max_eq_left h]

lemma zip_getElem? {α β : Type} (l : List α) (m : List β) (i : ℕ) :
    (l.zip m)[i]? = (l[i]?).bind (fun a => (m[i]?).map (fun b => (a, b))) := by
  induction l generalizing m i with
  | nil => simp
  | cons a l ih =>
    cases m with
    | nil => simp
    | cons b m =>
      cases i with
      | zero => simp
      | succ j => simpa using ih m j

lemma tail_getElem? {α : Type} (l : List α) (i : ℕ) : l.tail[i]? = l[i + 1]? := by
  cases l <;> simp

lemma flatMapTwo_length {α β : Type} (l : List α) (f g : α → β) :
    (l.flatMap (fun s => [f s, g s])).length = 2 * l.length := by
  induction l with
  | nil => simp
  | cons a l ih => simp [ih]; ring

lemma flatMapTwo_getElem?_even {α β : Type} (l : List α) (f g : α → β) (i : ℕ) :
    (l.flatMap (fun s => [f s, g s]))[2 * i]? = (l[i]?).map f := by
  induction l generalizing i with
  | nil => simp
  | cons a l ih =>
    cases i with
    | zero => simp
    | succ j =>
      have h2 : 2 * (j + 1) = 2 * j + 1 + 1 := by ring
      simp only [List.flatMap_cons, List.cons_append, h2, List.getElem?_cons_succ,
        List.nil_append, List.getElem?_cons_succ]
      exact ih j

lemma flatMapTwo_getElem?_odd {α β : Type} (l : List α) (f g : α → β) (i : ℕ) :
    (l.flatMap (fun s => [f s, g s]))[2 * i + 1]? = (l[i]?).map g := by
  induction l generalizing i with
  | nil => simp
  | cons a l ih =>
    cases i with
    | zero => simp
    | succ j =>
      have h2 : 2 * (j + 1) + 1 = 2 * j + 1 + 1 + 1 := by ring
      simp only [List.flatMap_cons, List.cons_append, h2, List.getElem?_cons_succ,
        List.nil_append, List.getElem?_cons_succ]
      exact ih j

lemma filterMap_flatMap {α β γ : Type} (l : List α) (f : α → List β) (g : β → Option γ) :
    (l.flatMap f).filterMap g = l.flatMap (fun a => (f a).filterMap g) := by
  induction l with
  | nil => simp
  | cons a l ih => simp [ih]

/-! ### Helper lemmas: decimal rendering -/

lemma digChar_isDigit (d : ℕ) : (digChar d).isDigit = true := by
  unfold digChar
  have h : d % 10 < 10 := Nat.mod_lt _ (by norm_num)
  set m := d % 10 with hm
  interval_cases m <;> decide

lemma natDigitsAux_digits : ∀ fuel n : ℕ, ∀ c ∈ natDigitsAux fuel n, c.isDigit = true := by
  intro fuel
  induction fuel with
  | zero => intro n c hc; simp [natDigitsAux] at hc
  | succ f ih =>
    intro n c hc
    unfold natDigitsAux at hc
    by_cases h0 : n = 0
    · simp [h0] at hc
    · rw [if_neg h0, List.mem_append] at hc
      rcases hc with hc | hc
      · exact ih _ c hc
      · rw [List.mem_singleton] at hc
        subst hc
        exact digChar_isDigit _

lemma digitsOf_digits (n : ℕ) : ∀ c ∈ digitsOf n, c.isDigit = true := by
  intro c hc
  unfold digitsOf at hc
  by_cases h0 : n = 0
  · rw [if_pos h0, List.mem_singleton] at hc
    subst hc; decide
  · rw [if_neg h0] at hc
    exact natDigitsAux_digits n n c hc

lemma natDigitsAux_length : ∀ fuel n k : ℕ, n < 10 ^ k → (natDigitsAux fuel n).length ≤ k := by
  intro fuel
  induction fuel with
  | zero => intro n k _; simp [natDigitsAux]
  | succ f ih =>
    intro n k hk
    unfold natDigitsAux
    by_cases h0 : n = 0
    · simp [h0]
    · rw [if_neg h0]
      cases k with
      | zero => omega
      | succ j =>
        have hd : n / 10 < 10 ^ j := by
          rw [Nat.div_lt_iff_lt_mul (by norm_num)]
          calc n < 10 ^ (j + 1) := hk
          _ = 10 ^ j * 10 := by ring
        have := ih (n / 10) j hd
        simp only [List.length_append, List.length_cons, List.length_nil]
        omega

lemma digitsOf_length_le_six (m : ℕ) (h : m < 1000000) : (digitsOf m).length ≤ 6 := by
  unfold digitsOf
  by_cases h0 : m = 0
  · simp [h0]
  · rw [if_neg h0]
    exact natDigitsAux_length m m 6 (by norm_num at h ⊢; omega)

lemma padSixChars_length (m : ℕ) (h : m < 1000000) : (padSixChars m).length = 6 := by
  have := digitsOf_length_le_six m h
  simp only [padSixChars, List.length_append, List.length_replicate]
  omega

lemma padSixChars_digits (m : ℕ) : ∀ c ∈ padSixChars m, c.isDigit = true := by
  intro c hc
  rw [padSixChars, List.mem_append] at hc
  rcases hc with hc | hc
  · rw [List.mem_replicate] at hc
    rw [hc.2]; decide
  · exact digitsOf_digits m c hc

lemma sixDecTail_spec (fs rs : List Char) (h6 : fs.length = 6)
    (hd : ∀ c ∈ fs, c.isDigit = true) (hr : ∀ c ∈ rs, c ≠ '.') :
    sixDecTail (fs ++ '.' :: rs) = true := by
  have ht : (fs ++ '.' :: rs).take 6 = fs := by
    rw [← h6]; exact List.take_left fs _
  have hdr : (fs ++ '.' :: rs).drop 6 = '.' :: rs := by
    rw [← h6]; exact List.drop_left fs _
  have hdr7 : (fs ++ '.' :: rs).drop 7 = rs := by
    have : (7 : ℕ) = 6 + 1 := by norm_num
    rw [this, ← List.drop_drop, hdr]
    simp
  unfold sixDecTail
  rw [ht, hdr, hdr7, h6]
  simp only [List.head?_cons, beq_self_eq_true, Bool.and_true, Bool.and_eq_true,
    List.all_eq_true, beq_iff_eq]
  refine ⟨hd, fun c hc => ?_⟩
  simpa [bne_iff_ne] using hr c hc

lemma isDigit_ne_dot {c : Char} (h : c.isDigit = true) : c ≠ '.' := by
  intro he
  subst he
  simp at h

lemma hasSixDecimals_formatFixed6 (q : ℚ) : hasSixDecimals (formatFixed6 q) = true := by
  have hmod : micro |q| % 1000000 < 1000000 := Nat.mod_lt _ (by norm_num)
  unfold hasSixDecimals formatFixed6
  show sixDecTail (fixedChars q).reverse = true
  unfold fixedChars
  have hrev : ((if q < 0 then ['-'] else []) ++
      digitsOf (micro |q| / 1000000) ++ '.' :: padSixChars (micro |q| % 1000000)).reverse =
      (padSixChars (micro |q| % 1000000)).reverse ++
        '.' :: ((digitsOf (micro |q| / 1000000)).reverse ++
          (if q < 0 then ['-'] else []).reverse) := by
    simp [List.reverse_append]
  rw [hrev]
  apply sixDecTail_spec
  · rw [List.length_reverse]
    exact padSixChars_length _ hmod
  · intro c hc
    rw [List.mem_reverse] at hc
    exact padSixChars_digits _ c hc
  · intro c hc
    rw [List.mem_append] at hc
    rcases hc with hc | hc
    · rw [List.mem_reverse] at hc
      exact isDigit_ne_dot (digitsOf_digits _ c hc)
    · rw [List.mem_reverse] at hc
      rcases lt_or_le q 0 with hq | hq
      · rw [if_pos hq, List.mem_singleton] at hc
        subst hc; decide
      · rw [if_neg (not_lt.mpr hq)] at hc
        simp at hc

/-! ### Helper lemmas: serialization -/

lemma zip_filterMap_length (ts : List ℚ) (ps : PitchArr) (h : ts.length = ps.length) :
    ((ts.zip ps).filterMap (fun tv => tv.2.map (fun v => (tv.1, v)))).length =
      ps.countP (fun v => v.isSome) := by
  induction ps generalizing ts with
  | nil => simp
  | cons p ps ih =>
    cases ts with
    | nil => simp at h
    | cons t ts =>
      simp only [List.length_cons, Nat.add_right_cancel_iff] at h
      cases p with
      | none => simpa [List.countP_cons] using ih ts h
      | some v => simpa [List.countP_cons] using ih ts h

lemma expandOpt_length (n : ℕ) (o : Option (List String)) :
    (expandOpt n o).length = optLen n o := by
  cases o <;> simp [expandOpt, optLen]

lemma time_stretch_tier_isSome (eng : Engine) (audio : Audio) (al tgt : Option Alignment)
    (c : Option ℚ) (sr : ℚ) (h : c.isSome ∨ (al.isSome ∧ tgt.isSome)) :
    (time_stretch eng audio al tgt c sr).2.isSome = true := by
  cases c with
  | some γ => rfl
  | none =>
    rcases h with h | ⟨ha, ht⟩
    · simp at h
    · cases al with
      | none => simp at ha
      | some a =>
        cases tgt with
        | none => simp at ht
        | some t => rfl

lemma vocode_durTier (eng : Engine) (audio : Audio) (sr : ℚ) (al tgt : Option Alignment)
    (pitch : Option PitchArr) (c : Option ℚ) :
    (vocode eng audio sr al tgt pitch c).durTier =
      if c.isSome ∨ (al.isSome ∧ tgt.isSome) then (time_stretch eng audio al tgt c sr).2
      else none := by
  by_cases h : c.isSome ∨ (al.isSome ∧ tgt.isSome)
  · rw [if_pos h]
    simp only [vocode, if_pos h]
    rcases hts : time_stretch eng audio al tgt c sr with ⟨r, tierOpt⟩
    cases r <;> cases pitch <;> rfl
  · rw [if_neg h]
    simp only [vocode, if_neg h]
    cases pitch <;> rfl

lemma set_append_length (h : Heap) (x y : PitchArr) :
    (h ++ [x]).set h.length y = h ++ [y] := by
  induction h with
  | nil => rfl
  | cons a h ih => simp [ih]

lemma tierValues_core (times rates : List ℚ) (lastT : ℚ) :
    tierValues (durationEntriesCore times rates lastT) =
      "0.000000" :: formatFixed6 lastT :: "0" :: "1.000000" ::
        ((segTriples times rates).enum.flatMap (fun p =>
          [formatFixed6 (p.2.1.1 + eps), formatFixed6 p.2.2,
           formatFixed6 (p.2.1.2 - eps), formatFixed6 p.2.2])) ++
        [formatFixed6 lastT, "1.000000"] := by
  simp [tierValues, durationEntriesCore, List.filterMap_append, filterMap_flatMap]

lemma segTriples_getElem? (times rates : List ℚ) (i : ℕ) :
    (segTriples times rates)[i]? =
      (times[i]?).bind (fun s => (times[i + 1]?).bind
        (fun e => (rates[i]?).map (fun r => ((s, e), r)))) := by
  unfold segTriples
  rw [zip_getElem?, zip_getElem?, tail_getElem?]
  cases times[i]? <;> cases times[i + 1]? <;> cases rates[i]? <;> simp

lemma segTriples_length (times rates : List ℚ) (hr : rates.length + 1 = times.length) :
    (segTriples times rates).length = rates.length := by
  unfold segTriples
  rw [List.length_zip, List.length_zip, List.length_tail]
  omega

/-! ### Claim theorems -/

/-- C7: calling `vocode` with no source alignment, no target alignment, no
constant stretch factor, and no target pitch contour returns the input audio
unchanged. -/
theorem C7_passthrough_identity : ∀ (eng : Engine) (audio : Audio) (sr : ℚ),
    (vocode eng audio sr none none none none).result = Except.ok audio := by
  intro eng audio sr
  rfl

/-- C10: for every pitch array passed to `write_pitch_tier`, including arrays
with NaN entries, the declared point count equals the number of emitted
(time, value) pairs. -/
theorem C10_pitch_tier_internally_consistent : ∀ (pitch : PitchArr) (d : ℚ),
    (write_pitch_tier pitch d).count = (write_pitch_tier pitch d).points.length := by
  intro pitch d
  unfold write_pitch_tier
  have hlen : (linspaceQ d pitch.length).length = pitch.length := by
    unfold linspaceQ
    rw [List.length_map, List.length_range]
  exact (zip_filterMap_length _ _ hlen).symm

/-- C1 (code bug evidence): the pitch-shift pipeline normalizes NaN to 0
before serializing, so for the contour `[100, NaN, 200]` (2 voiced frames out
of 3) over 2 seconds of audio it declares 3 points and emits all 3 frames,
the unvoiced one as a 0 Hz point, instead of declaring 2 and omitting it. -/
theorem C1_pipeline_emits_unvoiced_frames :
    (pitch_shift okEngine ([0, 0, 0, 0] : Audio) [some 100, none, some 200] 2).2.count = 3 ∧
    (pitch_shift okEngine ([0, 0, 0, 0] : Audio) [some 100, none, some 200] 2).2.points.map
      (fun q => q.2) = [100, 0, 200] ∧
    (pitch_shift okEngine ([0, 0, 0, 0] : Audio) [some 100, none, some 200] 2).2.points.length
      = 3 ∧
    ([some 100, none, some 200] : PitchArr).countP (fun v => v.isSome) = 2 := by
  exact ⟨rfl, rfl, rfl, rfl⟩

/-- C2 (counterexample): in constant-stretch mode the encoded rate is
`1/constant_stretch` with no floor applied: a constant stretch of 100 encodes
the rate 1/100, which is below 0.0625 and is not raised to 0.0625. -/
theorem C2_constant_mode_rate_not_clamped :
    (time_stretch okEngine ([0, 0] : Audio) none none (some 100) 1).2 =
      some ⟨[0, 2], [1 / 100]⟩ ∧ (1 : ℚ) / 100 < 1 / 16 := by
  constructor
  · simp only [time_stretch]
    norm_num
  · norm_num

/-- C2 (amended): the 0.0625 floor is applied only in alignment mode, where
each per-phoneme rate r is encoded as max(r, 0.0625); in constant-stretch mode
the encoded rate is exactly `1/constant_stretch`, unclamped. -/
theorem C2_rate_floor_alignment_mode_only :
    (∀ (eng : Engine) (audio : Audio) (a t : Alignment) (sr : ℚ),
      (time_stretch eng audio (some a) (some t) none sr).2 =
        some ⟨a.phonemeStarts ++ [a.endTime],
          (eng.rateFn a t).map (fun r => max r (1 / 16))⟩) ∧
    (∀ (eng : Engine) (audio : Audio) (al tgt : Option Alignment) (γ sr : ℚ),
      (time_stretch eng audio al tgt (some γ) sr).2 =
        some ⟨[0, (audio.length : ℚ) / sr], [1 / γ]⟩) := by
  constructor
  · intro eng audio a t sr
    simp only [time_stretch]
    rw [show clampRate = (fun r => max r (1 / 16)) from funext clampRate_eq_max]
  · intro eng audio al tgt γ sr
    rfl

/-- C4 (counterexample): `from_files_to_files` with 3 audio files and 2 source
alignment files does not fail: it silently builds a 2-item work list, dropping
the third audio file. -/
theorem C4_length_mismatch_truncates :
    (from_files_to_files ["a", "b", "c"] ["o1", "o2", "o3"]
      (some ["s1", "s2"]) none none).length = 2 ∧
    "c" ∉ (from_files_to_files ["a", "b", "c"] ["o1", "o2", "o3"]
      (some ["s1", "s2"]) none none).map (fun q => q.1) := by
  decide

/-- C4 (amended): `from_files_to_files` performs no length validation; the
per-item work list follows Python `zip` semantics, its length being the
minimum of the audio, output, and provided optional list lengths (absent lists
count as the audio length), so mismatched shorter lists silently drop trailing
items. -/
theorem C4_batch_zip_semantics :
    ∀ (audioFiles outputFiles : List String) (srcs tgts pitches : Option (List String)),
    (from_files_to_files audioFiles outputFiles srcs tgts pitches).length =
      min audioFiles.length (min outputFiles.length
        (min (optLen audioFiles.length srcs)
          (min (optLen audioFiles.length tgts) (optLen audioFiles.length pitches)))) := by
  intro audioFiles outputFiles srcs tgts pitches
  simp [from_files_to_files, List.length_zip, expandOpt_length]

/-- C3 (counterexample): with only a source alignment (no target alignment, no
constant factor, no pitch), `vocode` does not fail with any stretch
specification error: it returns the audio untouched, with no duration tier
written. -/
theorem C3_lone_alignment_not_rejected :
    vocode okEngine ([1, 2] : Audio) 1 (some ⟨[0], 1⟩) none none none =
      ⟨Except.ok [1, 2], none, none⟩ := by
  rfl

/-- C3 (amended): `vocode` performs no both-or-neither validation and raises no
`InvalidStretchSpecification`; time-stretching is entered (a duration tier is
written) iff a constant stretch factor is given or both alignments are given,
and in every other combination the stretch stage is silently skipped. -/
theorem C3_stretch_entered_iff : ∀ (eng : Engine) (audio : Audio) (sr : ℚ)
    (al tgt : Option Alignment) (pitch : Option PitchArr) (c : Option ℚ),
    ((vocode eng audio sr al tgt pitch c).durTier.isSome = true) ↔
      (c.isSome = true ∨ (al.isSome = true ∧ tgt.isSome = true)) := by
  intro eng audio sr al tgt pitch c
  rw [vocode_durTier]
  by_cases h : c.isSome ∨ (al.isSome ∧ tgt.isSome)
  · rw [if_pos h]
    simp only [time_stretch_tier_isSome eng audio al tgt c sr h, true_iff]
    exact h
  · rw [if_neg h]
    simp only [Option.isSome_none, Bool.false_eq_true, false_iff]
    exact h

/-- C8: for every engine behavior (success or failure in either transformation
stage), the workspace directory created by a `vocode` invocation is removed on
exit: the live-directory set is restored and no file in the workspace
survives. -/
theorem C8_workspace_always_cleaned : ∀ (eng : Engine) (audio : Audio) (sr : ℚ)
    (al tgt : Option Alignment) (pitch : Option PitchArr) (c : Option ℚ)
    (files : List (ℕ × String)) (dirs : List ℕ),
    ((vocodeFS eng audio sr al tgt pitch c files dirs).2.2 = dirs) ∧
    ((vocodeFS eng audio sr al tgt pitch c files dirs).2.1.all
      (fun q => q.1 != freshDir dirs) = true) := by
  intro eng audio sr al tgt pitch c files dirs
  constructor
  · show (freshDir dirs :: dirs).erase (freshDir dirs) = dirs
    simp
  · rw [List.all_eq_true]
    intro q hq
    exact (List.mem_filter.mp hq).2

/-- C9: `pitch_shift` copies the caller's pitch array before the NaN-to-0
normalization, so the caller's array in the heap is unchanged after the call. -/
theorem C9_caller_pitch_not_mutated : ∀ (eng : Engine) (audio : Audio) (h : Heap)
    (r : ℕ) (sr : ℚ), r < h.length →
    readRef (pitch_shiftH eng audio h r sr).2 r = readRef h r := by
  intro eng audio h r sr hr
  simp only [pitch_shiftH, writeRef]
  rw [set_append_length]
  unfold readRef
  rw [List.getElem?_append_left hr]

/-- C9 witness: a concrete heap holding the caller's contour `[3, NaN]` is
untouched by `pitch_shiftH`. -/
theorem C9_caller_pitch_not_mutated_witness :
    0 < ([[some 3, none]] : Heap).length ∧
    readRef (pitch_shiftH okEngine [1] [[some 3, none]] 0 1).2 0 =
      readRef [[some 3, none]] 0 :=
  ⟨by decide, C9_caller_pitch_not_mutated okEngine [1] [[some 3, none]] 0 1 (by decide)⟩

/-- C6: when stretching is requested (a constant factor or both alignments)
together with a target pitch, the stretch stage runs first and the pitch tier
is computed against the post-stretch audio: the tier written is exactly the
one for the stretched signal's duration `len(stretched)/sr`, its `xmax` is
that duration, the engine's pitch-shift resynthesis receives the stretched
audio, and frame j of F is assigned time `j * D / (F - 1)`. -/
theorem C6_stretch_precedes_shift (eng : Engine) (audio : Audio) (sr : ℚ)
    (al tgt : Option Alignment) (p : PitchArr) (c : Option ℚ) (a1 : Audio)
    (hc : c.isSome ∨ (al.isSome ∧ tgt.isSome))
    (hs : (time_stretch eng audio al tgt c sr).1 = Except.ok a1) :
    (vocode eng audio sr al tgt (some p) c).pitchTier =
      some (write_pitch_tier (p.map (fun v => some (v.getD 0))) ((a1.length : ℚ) / sr)) ∧
    (vocode eng audio sr al tgt (some p) c).result =
      eng.shift a1 (write_pitch_tier (p.map (fun v => some (v.getD 0)))
        ((a1.length : ℚ) / sr)) ∧
    (write_pitch_tier (p.map (fun v => some (v.getD 0))) ((a1.length : ℚ) / sr)).xmax =
      (a1.length : ℚ) / sr ∧
    ∀ j, j < p.length → 2 ≤ p.length →
      (linspaceQ ((a1.length : ℚ) / sr) p.length)[j]? =
        some ((j : ℚ) * ((a1.length : ℚ) / sr) / ((p.length : ℚ) - 1)) := by
  have hv : vocode eng audio sr al tgt (some p) c =
      ⟨(pitch_shift eng a1 p sr).1, (time_stretch eng audio al tgt c sr).2,
        some (pitch_shift eng a1 p sr).2⟩ := by
    simp only [vocode, if_pos hc]
    rcases hts : time_stretch eng audio al tgt c sr with ⟨r, tierOpt⟩
    rw [hts] at hs
    replace hs : r = Except.ok a1 := hs
    subst hs
    rfl
  rw [hv]
  refine ⟨rfl, rfl, rfl, ?_⟩
  intro j hj h2
  unfold linspaceQ
  rw [List.getElem?_map, List.getElem?_range hj]
  simp only [Option.map_some']
  rw [if_neg (by omega)]

/-- C6 witness: a concrete run in which stretching doubles a 2-sample signal
at 1 Hz, so the pitch tier is computed over the stretched duration 4, not the
original 2. -/
theorem C6_stretch_precedes_shift_witness :
    ((some (2 : ℚ)).isSome = true ∨
      ((none : Option Alignment).isSome = true ∧ (none : Option Alignment).isSome = true)) ∧
    (time_stretch okEngine ([0, 0] : Audio) none none (some 2) 1).1 =
      Except.ok [0, 0, 0, 0] ∧
    (vocode okEngine ([0, 0] : Audio) 1 none none (some [some 100, none]) (some 2)).pitchTier =
      some (write_pitch_tier (([some 100, none] : PitchArr).map (fun v => some (v.getD 0)))
        ((([0, 0, 0, 0] : Audio).length : ℚ) / 1)) ∧
    (linspaceQ ((([0, 0, 0, 0] : Audio).length : ℚ) / 1)
        ([some 100, none] : PitchArr).length)[1]? =
      some ((1 : ℚ) * ((([0, 0, 0, 0] : Audio).length : ℚ) / 1) /
        ((([some 100, none] : PitchArr).length : ℚ) - 1)) := by
  have H := C6_stretch_precedes_shift okEngine ([0, 0] : Audio) 1 none none
    [some 100, none] (some 2) [0, 0, 0, 0] (Or.inl rfl) rfl
  exact ⟨Or.inl rfl, rfl, H.1, H.2.2.2 1 (by norm_num) (by norm_num)⟩

/-- C5 (counterexample): the first point's time in the serialized duration
tier is the literal `0`, rendered as the line `\tnumber = 0`, which does not
carry 6 decimal digits of fixed precision, so not every floating value in the
file is 6-decimal rendered. -/
theorem C5_first_point_time_literal_zero :
    (durationEntriesCore ([0, 2] : List ℚ) [3 / 2] 2)[7]? =
      some (TierEntry.valE "\tnumber" "0") ∧
    renderEntry (TierEntry.valE "\tnumber" "0") = "\tnumber = 0" ∧
    hasSixDecimals "0" = false ∧
    write_duration_tier ([0, 2] : List ℚ) [3 / 2] =
      some (durationEntriesCore ([0, 2] : List ℚ) [3 / 2] 2) := by
  exact ⟨rfl, rfl, by decide, rfl⟩

/-- C5 (amended): for N boundary times and N-1 rates the serialized duration
tier declares and contains exactly 2N points, the first point is (0, 1.0),
the last point is (last boundary, 1.0), segment i contributes the points
(start + 1e-6, r) and (end - 1e-6, r), and every floating value in the file
is rendered with 6 decimal digits of fixed precision except the first point's
time, which is written as the literal `0`. -/
theorem C5_duration_tier_structure (times rates : List ℚ) (lastT : ℚ) (i : ℕ)
    (hl : times.getLast? = some lastT)
    (hr : rates.length + 1 = times.length)
    (hi : i < rates.length) :
    write_duration_tier times rates = some (durationEntriesCore times rates lastT) ∧
    durationTierPoints times rates = some (durationPointsCore times rates lastT) ∧
    (durationPointsCore times rates lastT).length = 2 * times.length ∧
    (durationPointsCore times rates lastT).head? = some (0, 1) ∧
    (durationPointsCore times rates lastT).getLast? = some (lastT, 1) ∧
    (durationPointsCore times rates lastT)[2 * i + 1]? =
      some ((times[i]?).getD 0 + eps, (rates[i]?).getD 0) ∧
    (durationPointsCore times rates lastT)[2 * i + 2]? =
      some ((times[i + 1]?).getD 0 - eps, (rates[i]?).getD 0) ∧
    (tierValues (durationEntriesCore times rates lastT)).take 3 =
      ["0.000000", formatFixed6 lastT, "0"] ∧
    ((tierValues (durationEntriesCore times rates lastT)).drop 3).all hasSixDecimals
      = true := by
  have hseg : (segTriples times rates).length = rates.length := segTriples_length times rates hr
  have hflat : ((segTriples times rates).flatMap
      (fun s => [segPointA s, segPointB s])).length = 2 * rates.length := by
    rw [flatMapTwo_length, hseg]
  have hti : i < times.length := by omega
  have ht1 : i + 1 < times.length := by omega
  refine ⟨?_, ?_, ?_, rfl, ?_, ?_, ?_, ?_, ?_⟩
  · unfold write_duration_tier
    rw [hl]
    rfl
  · unfold durationTierPoints
    rw [hl]
    rfl
  · unfold durationPointsCore
    simp only [List.length_cons, List.length_append, hflat, List.length_nil]
    omega
  · unfold durationPointsCore
    rw [List.getLast?_concat]
  · unfold durationPointsCore
    rw [List.getElem?_append_left
        (by simp only [List.length_cons, hflat]; omega),
      List.getElem?_cons_succ, flatMapTwo_getElem?_even, segTriples_getElem?,
      List.getElem?_eq_getElem hti, List.getElem?_eq_getElem ht1,
      List.getElem?_eq_getElem hi]
    simp [segPointA]
  · unfold durationPointsCore
    show (((0, 1) :: (segTriples times rates).flatMap
      (fun s => [segPointA s, segPointB s])) ++ [(lastT, 1)])[2 * i + 1 + 1]? = _
    rw [List.getElem?_append_left
        (by simp only [List.length_cons, hflat]; omega),
      List.getElem?_cons_succ, flatMapTwo_getElem?_odd, segTriples_getElem?,
      List.getElem?_eq_getElem hti, List.getElem?_eq_getElem ht1,
      List.getElem?_eq_getElem hi]
    simp [segPointB]
  · rw [tierValues_core]
    rfl
  · rw [tierValues_core]
    rw [List.all_eq_true]
    intro v hv
    simp only [List.cons_append, List.drop_succ_cons, List.drop_zero, List.mem_cons,
      List.mem_append, List.mem_flatMap, List.mem_singleton, List.not_mem_nil,
      or_false] at hv
    rcases hv with rfl | hv
    · decide
    rcases hv with ⟨a, _, hv⟩ | hv
    · rcases hv with rfl | rfl | rfl | rfl <;> exact hasSixDecimals_formatFixed6 _
    · rcases hv with rfl | rfl
      · exact hasSixDecimals_formatFixed6 _
      · decide

/-- C5 witness: the amended structure theorem evaluated at boundaries
[0, 1, 2] with rates [3/2, 4/5] and segment index 1. -/
theorem C5_duration_tier_structure_witness :
    write_duration_tier ([0, 1, 2] : List ℚ) [3 / 2, 4 / 5] =
      some (durationEntriesCore ([0, 1, 2] : List ℚ) [3 / 2, 4 / 5] 2) ∧
    durationTierPoints ([0, 1, 2] : List ℚ) [3 / 2, 4 / 5] =
      some (durationPointsCore ([0, 1, 2] : List ℚ) [3 / 2, 4 / 5] 2) ∧
    (durationPointsCore ([0, 1, 2] : List ℚ) [3 / 2, 4 / 5] 2).length =
      2 * ([0, 1, 2] : List ℚ).length ∧
    (durationPointsCore ([0, 1, 2] : List ℚ) [3 / 2, 4 / 5] 2).head? = some (0, 1) ∧
    (durationPointsCore ([0, 1, 2] : List ℚ) [3 / 2, 4 / 5] 2).getLast? = some (2, 1) ∧
    (durationPointsCore ([0, 1, 2] : List ℚ) [3 / 2, 4 / 5] 2)[2 * 1 + 1]? =
      some ((([0, 1, 2] : List ℚ)[1]?).getD 0 + eps, (([3 / 2, 4 / 5] : List ℚ)[1]?).getD 0) ∧
    (durationPointsCore ([0, 1, 2] : List ℚ) [3 / 2, 4 / 5] 2)[2 * 1 + 2]? =
      some ((([0, 1, 2] : List ℚ)[1 + 1]?).getD 0 - eps,
        (([3 / 2, 4 / 5] : List ℚ)[1]?).getD 0) ∧
    (tierValues (durationEntriesCore ([0, 1, 2] : List ℚ) [3 / 2, 4 / 5] 2)).take 3 =
      ["0.000000", formatFixed6 2, "0"] ∧
    ((tierValues (durationEntriesCore ([0, 1, 2] : List ℚ) [3 / 2, 4 / 5] 2)).drop 3).all
      hasSixDecimals = true :=
  C5_duration_tier_structure [0, 1, 2] [3 / 2, 4 / 5] 2 1 rfl rfl (by norm_num)

end Psola
